import Mathlib

/-!
# Verification of the macrotrackr-bot daily progress tracking subsystem

Shallow embedding of the core components of the repository:

* the calorie extractor `extract_total_calories` (src/utils/helpers.py,
  lines 37-66, and its duplicated draft in src/app.py, lines 193-222),
* the day window calculator `get_daily_window_timestamps`
  (src/utils/helpers.py lines 14-34, boundary hour 21; and the draft in
  src/app.py lines 172-191, boundary hour 5),
* the meal ledger operations of class `MealCalorie`
  (src/database/models.py), and
* the progress calculator `calculate_daily_progress`
  (src/services/progress_service.py lines 17-32 and src/app.py 224-239).

Texts are embedded as `List Char`.  The Python `re` module's backtracking
search (with `re.IGNORECASE`) is embedded by a small backtracking matcher
over a token alphabet that transliterates, token for token, the six
concrete regular expressions appearing in the source.  All definitions are
structural recursions, so every concrete run evaluates inside the kernel.

ASCII model: the claims' inputs are ASCII, so `\s` is embedded as the six
ASCII whitespace characters, `\d` as `'0'-'9'`, and `re.IGNORECASE` as
ASCII lowercasing; this matches Python's behavior on all ASCII text.
-/

/-- ASCII lowercasing (codes 65-90 map to 97-122), as performed by
`re.IGNORECASE` on ASCII text. -/
def lowerC (c : Char) : Char :=
  if 65 ≤ c.toNat ∧ c.toNat ≤ 90 then Char.ofNat (c.toNat + 32) else c

/-- The character class `\s` of Python `re` restricted to ASCII:
space, tab, newline, carriage return, vertical tab, form feed. -/
def isSpaceC (c : Char) : Bool :=
  c = ' ' || c = '\t' || c = '\n' || c = '\r' || c = '\x0b' || c = '\x0c'

/-- The character class `\d`, i.e. `'0'-'9'` (codes 48-57). -/
def isDigitC (c : Char) : Bool := decide (48 ≤ c.toNat ∧ c.toNat ≤ 57)

/-- Case-insensitive test that the pattern literal `l` starts the text `s`. -/
def ciStarts : List Char → List Char → Bool
  | [], _ => true
  | _ :: _, [] => false
  | a :: as, b :: bs => (lowerC a == lowerC b) && ciStarts as bs

/-- Result of a regex match: the text captured by group 1, if any. -/
abbrev MatchRes := Option (List Char)

/-- Token alphabet transliterating the six regular expressions of
`extract_total_calories`.  `lit l` is a case-insensitive literal, `optColon`
is `:?`, `starSpace` is `\s*`, `lazyAny` is `.*?`, `groupDigits` is the
capturing `(\d+)` and `plainDigits` the non-capturing `\d+`. -/
inductive Tok where
  | lit : List Char → Tok
  | optColon : Tok
  | starSpace : Tok
  | lazyAny : Tok
  | groupDigits : Tok
  | plainDigits : Tok
deriving DecidableEq

/-- Maximal leading run of decimal digits (the text a greedy `\d+` explores). -/
def digitRun : List Char → List Char
  | [] => []
  | c :: t => if isDigitC c then c :: digitRun t else []

/-- Greedy `\s*`: consume as many whitespace characters as possible, then
backtrack one at a time; `k` is the continuation matching the rest of the
pattern. -/
def starSpaceK (k : List Char → Option MatchRes) : List Char → Option MatchRes
  | [] => k []
  | c :: t =>
    if isSpaceC c then (starSpaceK k t <|> k (c :: t)) else k (c :: t)

/-- Lazy `.*?`: try the continuation first, then consume one character
(never a newline) and repeat. -/
def lazyAnyK (k : List Char → Option MatchRes) : List Char → Option MatchRes
  | [] => k []
  | c :: t => k (c :: t) <|> (if c = '\n' then none else lazyAnyK k t)

/-- Greedy non-capturing `\d+`: try consuming `n` digits for `n` from the
maximal run length down to 1. -/
def plusTryN (s : List Char) (k : List Char → Option MatchRes) : Nat → Option MatchRes
  | 0 => none
  | n + 1 => k (s.drop (n + 1)) <|> plusTryN s k n

/-- Greedy capturing `(\d+)`: like `plusTryN`, but on success group 1 is
the consumed digits (all six source patterns have exactly one group, so it
is group 1). -/
def plusTryG (s : List Char) (k : List Char → Option MatchRes) : Nat → Option MatchRes
  | 0 => none
  | n + 1 =>
    (match k (s.drop (n + 1)) with
     | some _ => some (some (s.take (n + 1)))
     | none => none) <|> plusTryG s k n

/-- Match one token against the text `s`, with continuation `k` for the
remainder of the pattern.  Backtracking order is Python's: greedy
quantifiers try longer consumption first, lazy ones shorter first. -/
def tokM : Tok → List Char → (List Char → Option MatchRes) → Option MatchRes
  | .lit l, s, k => if ciStarts l s then k (s.drop l.length) else none
  | .optColon, s, k =>
    match s with
    | [] => k []
    | c :: t => if c = ':' then (k t <|> k (c :: t)) else k (c :: t)
  | .starSpace, s, k => starSpaceK k s
  | .lazyAny, s, k => lazyAnyK k s
  | .groupDigits, s, k => plusTryG s k (digitRun s).length
  | .plainDigits, s, k => plusTryN s k (digitRun s).length

/-- Match a whole token sequence at the start of `s` (a regex match need
not consume all of `s`). -/
def matchToks : List Tok → List Char → Option MatchRes
  | [], _ => some none
  | t :: ts, s => tokM t s (fun r => matchToks ts r)

/-- `re.search`: try the pattern at each starting position, leftmost
position first. -/
def searchToks (toks : List Tok) : List Char → Option MatchRes
  | [] => matchToks toks []
  | c :: t => matchToks toks (c :: t) <|> searchToks toks t

/-- The literal `kcal` occurring in every pattern. -/
def kcalLit : List Char := ['k', 'c', 'a', 'l']

/-- `r'\*Total\*:?\s*(\d+)\s*kcal'`. -/
def pat1 : List Tok :=
  [.lit ['*', 'T', 'o', 't', 'a', 'l', '*'], .optColon, .starSpace,
   .groupDigits, .starSpace, .lit kcalLit]

/-- `r'Total:?\s*(\d+)\s*kcal'`. -/
def pat2 : List Tok :=
  [.lit ['T', 'o', 't', 'a', 'l'], .optColon, .starSpace,
   .groupDigits, .starSpace, .lit kcalLit]

/-- `r'Total.*?(\d+)\s*kcal'`. -/
def pat3 : List Tok :=
  [.lit ['T', 'o', 't', 'a', 'l'], .lazyAny, .groupDigits, .starSpace, .lit kcalLit]

/-- `r'(\d+)\s*kcal.*?total'`. -/
def pat4 : List Tok :=
  [.groupDigits, .starSpace, .lit kcalLit, .lazyAny, .lit ['t', 'o', 't', 'a', 'l']]

/-- `r'total.*?(\d+)\s*kcal'`. -/
def pat5 : List Tok :=
  [.lit ['t', 'o', 't', 'a', 'l'], .lazyAny, .groupDigits, .starSpace, .lit kcalLit]

/-- `r'(\d+)\s*kcal.*?P\s*\d+g.*?C\s*\d+g.*?F\s*\d+g'`. -/
def pat6 : List Tok :=
  [.groupDigits, .starSpace, .lit kcalLit, .lazyAny,
   .lit ['P'], .starSpace, .plainDigits, .lit ['g'], .lazyAny,
   .lit ['C'], .starSpace, .plainDigits, .lit ['g'], .lazyAny,
   .lit ['F'], .starSpace, .plainDigits, .lit ['g']]

/-- The ordered pattern cascade of `extract_total_calories` (identical in
src/utils/helpers.py and src/app.py). -/
def caloriePatterns : List (List Tok) := [pat1, pat2, pat3, pat4, pat5, pat6]

/-- Python `int` on the (all-digit) text captured by group 1. -/
def digitsVal (ds : List Char) : Nat :=
  ds.foldl (fun a c => 10 * a + (c.toNat - 48)) 0

/-- Application constants of `class Config` (src/config.py lines 17-21). -/
def Config.DAILY_CALORIE_TARGET : Nat := 1350

def Config.PROGRESS_BAR_LENGTH : Nat := 20

def Config.MAX_CALORIE_VALUE : Nat := 3000

def Config.MIN_CALORIE_VALUE : Nat := 0

/-- The pattern loop shared verbatim by the two drafts of
`extract_total_calories`: try each pattern in order; on a match whose
group-1 value lies within `[minV, maxV]` return it, otherwise fall through
to the next pattern; return 0 when the cascade is exhausted.  (A match
without a captured group would make `int(match.group(1))` raise and the
loop `continue`; that is the `some none` branch.) -/
def extractAux (minV maxV : Nat) : List (List Tok) → List Char → Nat
  | [], _ => 0
  | p :: ps, s =>
    match searchToks p s with
    | some (some ds) =>
      let calories := digitsVal ds
      if minV ≤ calories ∧ calories ≤ maxV then calories
      else extractAux minV maxV ps s
    | some none => extractAux minV maxV ps s
    | none => extractAux minV maxV ps s

/-- `extract_total_calories` of src/utils/helpers.py (lines 37-66): bounds
come from `config.MIN_CALORIE_VALUE` / `config.MAX_CALORIE_VALUE`. -/
def extract_total_calories (s : List Char) : Nat :=
  extractAux Config.MIN_CALORIE_VALUE Config.MAX_CALORIE_VALUE caloriePatterns s

/-- `extract_total_calories` of src/app.py (lines 193-222): same body with
the bounds hard-coded as `0 <= calories <= 3000`. -/
def extract_total_calories_app (s : List Char) : Nat :=
  extractAux 0 3000 caloriePatterns s

/-!
## Day window calculator

Python naive `datetime` values are embedded as microseconds on an integer
time line (`datetime` has uniform 86400-second days and no leap seconds,
so the embedding is exact).  `now.replace(hour=h, minute=0, second=0,
microsecond=0)` is "start of `now`'s day plus `h` hours", and `now.hour`
is the hour component of the time of day.  Python `//` and `%` on a
positive divisor agree with `Int.ediv` / `Int.emod`.
-/

def usPerHour : Int := 3600000000

def usPerDay : Int := 86400000000

/-- `get_daily_window_timestamps` of src/utils/helpers.py (lines 14-34):
boundary hour 21 (9pm UTC).  `t` is `datetime.now()` in microseconds. -/
def get_daily_window_timestamps (t : Int) : Int × Int :=
  let today9pm := t - t % usPerDay + 21 * usPerHour
  if (t % usPerDay) / usPerHour < 21 then
    (today9pm - usPerDay, today9pm)
  else
    (today9pm, today9pm + usPerDay)

/-- `get_daily_window_timestamps` of src/app.py (lines 172-191): same
algorithm but with boundary hour 5 (5am). -/
def get_daily_window_timestamps_app (t : Int) : Int × Int :=
  let today5am := t - t % usPerDay + 5 * usPerHour
  if (t % usPerDay) / usPerHour < 5 then
    (today5am - usPerDay, today5am)
  else
    (today5am, today5am + usPerDay)

/-!
## Meal ledger (src/database/models.py, class MealCalorie)

The `meal_calories` table is embedded as a list of rows.  `id` is the
auto-assigned primary key and `created_at` the server-assigned insertion
timestamp; both arrive as parameters of `store` here because the real
store assigns them outside the caller's control.

`ORDER BY created_at DESC LIMIT 1` returns one row with maximal
`created_at`; Postgres leaves the choice among equal timestamps
unspecified, and this embedding picks the first such row in table order
(any fixed choice yields the same `created_at` value, which is all the
subsequent DELETE uses).
-/

structure MealEntry where
  id : Nat
  user_id : Int
  user_name : List Char
  calories : Nat
  meal_analysis : List Char
  created_at : Int
deriving DecidableEq

/-- The dict returned by `delete_last_meal`:
`{'calories': ..., 'meal_analysis': ..., 'created_at': ...}`. -/
structure MealInfo where
  calories : Nat
  meal_analysis : List Char
  created_at : Int
deriving DecidableEq

/-- The row produced by
`SELECT ... WHERE user_id = %s ORDER BY created_at DESC LIMIT 1`. -/
def latestFor (uid : Int) (l : List MealEntry) : Option MealEntry :=
  match l.filter (fun e => e.user_id == uid) with
  | [] => none
  | e :: es =>
    some (es.foldl (fun b x => if b.created_at < x.created_at then x else b) e)

/-- Mode of the persistence collaborator: whether `get_db_connection`
yields a connection, and whether a `cursor.execute` or the `conn.commit`
raises.  (§5 of the spec: each operation is one atomic unit of work, so a
raised exception leaves the table unchanged.) -/
structure DbMode where
  connOk : Bool
  queryFails : Bool
  commitFails : Bool
deriving DecidableEq

/-- Body of `MealCalorie.store` (models.py lines 17-38) up to the
`except` clause: `DbErr` is a raised exception. -/
def storeRaw (m : DbMode) (l : List MealEntry) (nid : Nat) (uid : Int)
    (uname : List Char) (cal : Nat) (txt : List Char) (now : Int) :
    Except Unit (Bool × List MealEntry) :=
  if !m.connOk then .ok (false, l)
  else if m.queryFails then .error ()
  else if m.commitFails then .error ()
  else .ok (true, l ++ [⟨nid, uid, uname, cal, txt, now⟩])

/-- `MealCalorie.store`: the `except` clause turns any raised error into
`False` (the transaction was not committed, so the table is unchanged). -/
def MealCalorie.store (m : DbMode) (l : List MealEntry) (nid : Nat) (uid : Int)
    (uname : List Char) (cal : Nat) (txt : List Char) (now : Int) :
    Bool × List MealEntry :=
  match storeRaw m l nid uid uname cal txt now with
  | .ok r => r
  | .error _ => (false, l)

/-- `SUM(calories) ... WHERE user_id = %s AND created_at >= %s` with
`COALESCE(..., 0)`. -/
def sumCaloriesFrom (uid : Int) (start : Int) (l : List MealEntry) : Nat :=
  (l.filter (fun e => e.user_id == uid && start ≤ e.created_at)).foldl
    (fun a e => a + e.calories) 0

/-- Body of `MealCalorie.get_daily_total` (models.py lines 40-66) up to
the `except` clause; `t` is the current instant used by
`get_daily_window_timestamps`. -/
def getDailyTotalRaw (m : DbMode) (l : List MealEntry) (uid : Int) (t : Int) :
    Except Unit Nat :=
  let start := (get_daily_window_timestamps t).1
  if !m.connOk then .ok 0
  else if m.queryFails then .error ()
  else .ok (sumCaloriesFrom uid start l)

/-- `MealCalorie.get_daily_total`: errors become `0`. -/
def MealCalorie.get_daily_total (m : DbMode) (l : List MealEntry) (uid : Int)
    (t : Int) : Nat :=
  match getDailyTotalRaw m l uid t with
  | .ok n => n
  | .error _ => 0

/-- Body of `MealCalorie.reset_daily_total` (models.py lines 68-93) up to
the `except` clause. -/
def resetDailyTotalRaw (m : DbMode) (l : List MealEntry) (uid : Int) (t : Int) :
    Except Unit (Bool × List MealEntry) :=
  let start := (get_daily_window_timestamps t).1
  if !m.connOk then .ok (false, l)
  else if m.queryFails then .error ()
  else if m.commitFails then .error ()
  else .ok (true, l.filter (fun e => !(e.user_id == uid && start ≤ e.created_at)))

/-- `MealCalorie.reset_daily_total`: errors become `False`. -/
def MealCalorie.reset_daily_total (m : DbMode) (l : List MealEntry) (uid : Int)
    (t : Int) : Bool × List MealEntry :=
  match resetDailyTotalRaw m l uid t with
  | .ok r => r
  | .error _ => (false, l)

/-- Body of `MealCalorie.delete_last_meal` (models.py lines 95-160) up to
the `except` clause.  The DELETE matches
`user_id = %s AND created_at = (SELECT created_at ... ORDER BY created_at
DESC LIMIT 1)`, i.e. it removes every row of the user carrying the maximal
timestamp; `deleted_count` is `cur.rowcount`. -/
def deleteLastMealRaw (m : DbMode) (l : List MealEntry) (uid : Int) :
    Except Unit ((Bool × Option MealInfo) × List MealEntry) :=
  if !m.connOk then .ok ((false, none), l)
  else if m.queryFails then .error ()
  else
    match latestFor uid l with
    | none => .ok ((false, none), l)
    | some e =>
      let info : MealInfo := ⟨e.calories, e.meal_analysis, e.created_at⟩
      let l' := l.filter (fun x => !(x.user_id == uid && x.created_at == e.created_at))
      let deletedCount := l.length - l'.length
      if m.commitFails then .error ()
      else if deletedCount > 0 then .ok ((true, some info), l')
      else .ok ((false, none), l')

/-- `MealCalorie.delete_last_meal`: errors become `(False, None)`. -/
def MealCalorie.delete_last_meal (m : DbMode) (l : List MealEntry) (uid : Int) :
    (Bool × Option MealInfo) × List MealEntry :=
  match deleteLastMealRaw m l uid with
  | .ok r => r
  | .error _ => ((false, none), l)

/-- The normal database mode: connected, nothing raises. -/
def dbOk : DbMode := ⟨true, false, false⟩

/-!
## Progress calculator

`calculate_daily_progress` (src/services/progress_service.py lines 17-32,
duplicated in src/app.py lines 224-239) computes
`min(100, round((total_calories / target) * 100)) if target > 0 else 0`.
Python `/` is embedded as exact rational division and Python 3 `round` as
round-half-to-even (banker's rounding), which is `round`'s documented
behavior; the claims' counterexample below is chosen so that the float
computation is exact and agrees with the rational one. -/

/-- Python 3 `round` to an integer: nearest, ties to even. -/
def pythonRound (q : ℚ) : ℤ :=
  if q - ⌊q⌋ < 1 / 2 then ⌊q⌋
  else if 1 / 2 < q - ⌊q⌋ then ⌊q⌋ + 1
  else if ⌊q⌋ % 2 = 0 then ⌊q⌋ else ⌊q⌋ + 1

/-- The `ProgressSnapshot` dict. -/
structure ProgressSnapshot where
  total_calories : Nat
  target_calories : Nat
  percentage : Int
  remaining_calories : Int
deriving DecidableEq

/-- `calculate_daily_progress`, parametrized by the total read from the
ledger and by the target constant (`config.DAILY_CALORIE_TARGET`, i.e.
1350, in both source copies). -/
def calculate_daily_progress (total target : Nat) : ProgressSnapshot :=
  { total_calories := total
    target_calories := target
    percentage :=
      if target > 0 then min 100 (pythonRound ((total : ℚ) / (target : ℚ) * 100))
      else 0
    remaining_calories := max 0 ((target : Int) - (total : Int)) }

/-!
## Photo processing flow (src/app.py, `process_meal_photo`, lines 384-474)

The collaborators (Telegram transport, photo download, vision model) are
embedded as an environment of their results.  The function's observable
effect relevant to the ledger is whether, and with which arguments,
`store_meal_calories` is invoked.
-/

/-- Inputs and collaborator results of one `process_meal_photo` run.
`caption` and `analysis` are the raw strings; Python truthiness of
`caption.strip()` and of `analysis` is modeled below. -/
structure PhotoEnv where
  hasPhoto : Bool
  caption : List Char
  userId : Int
  userName : List Char
  downloadOk : Bool
  analysis : Option (List Char)
  channelOk : Bool
deriving DecidableEq

/-- The arguments of the `store_meal_calories` call, when one happens. -/
structure StoreCall where
  user_id : Int
  user_name : List Char
  calories : Nat
  analysis : List Char
deriving DecidableEq

/-- `process_meal_photo`, reduced to its ledger-relevant outcome: the
store call it performs, if any.  Early returns: no photo, blank caption
(`caption.strip()` falsy iff every character is whitespace), failed
download, falsy analysis; then the channel post must succeed and the
extracted calories must be `> 0` before `store_meal_calories` is called. -/
def process_meal_photo (env : PhotoEnv) : Option StoreCall :=
  if !env.hasPhoto then none
  else if env.caption.all isSpaceC then none
  else if !env.downloadOk then none
  else
    match env.analysis with
    | none => none
    | some a =>
      if a = [] then none
      else
        let calories := extract_total_calories_app a
        if env.channelOk then
          if calories > 0 then some ⟨env.userId, env.userName, calories, a⟩
          else none
        else none

/-- The input string family of §8 of the spec:
`"*Total:* {D} kcal | P {X}g | C {Y}g | F {Z}g"` with `D` the rendered
calorie count and `X`, `Y`, `Z` digit strings. -/
def c1String (D X Y Z : List Char) : List Char :=
  '*' :: 'T' :: 'o' :: 't' :: 'a' :: 'l' :: ':' :: '*' :: ' ' ::
    (D ++ (' ' :: 'k' :: 'c' :: 'a' :: 'l' :: ' ' :: '|' :: ' ' :: 'P' :: ' ' ::
      (X ++ ('g' :: ' ' :: '|' :: ' ' :: 'C' :: ' ' ::
        (Y ++ ('g' :: ' ' :: '|' :: ' ' :: 'F' :: ' ' :: (Z ++ ['g'])))))))

/-- Decimal digit rendering with explicit fuel (structural, so concrete
values compute in the kernel). -/
def natDecFuel : Nat → Nat → List Char
  | 0, _ => []
  | f + 1, n =>
    if n < 10 then [Nat.digitChar n]
    else natDecFuel f (n / 10) ++ [Nat.digitChar (n % 10)]

/-- Python `str` of a natural number: decimal, no leading zeros. -/
def natDec (n : Nat) : List Char := natDecFuel (n + 1) n

/-- `pythonRound` is round-half-to-even: it agrees with the independent
formulation via `⌊q + 1/2⌋` with odd results pulled back at exact ties. -/
def roundHalfEvenSpec (q : ℚ) : ℤ :=
  if (q + 1 / 2 : ℚ) = (⌊q + 1 / 2⌋ : ℚ) ∧ ⌊q + 1 / 2⌋ % 2 = 1 then ⌊q + 1 / 2⌋ - 1
  else ⌊q + 1 / 2⌋

/-- The rounding mode asserted by the spec: round half up (ties away from
zero; the two coincide on the nonnegative arguments at hand). -/
def roundHalfUpSpec (q : ℚ) : ℤ := ⌊q + 1 / 2⌋

/-- A ledger in which user 7 has two entries sharing the maximal
`created_at` (timestamps collide at whole-second resolution). -/
def tieLedger : List MealEntry :=
  [⟨1, 7, ['u'], 100, ['a'], 50⟩, ⟨2, 7, ['u'], 200, ['b'], 50⟩]

/-- Case-insensitive substring occurrence, as an executable check. -/
def ciOccursB (l : List Char) : List Char → Bool
  | [] => ciStarts l []
  | c :: t => ciStarts l (c :: t) || ciOccursB l t

/-!
## Helper lemmas
-/

/-- Values surviving the bound check lie in `[minV, maxV]`; otherwise the
cascade yields 0. -/
theorem extractAux_eq_zero_or_bounded (minV maxV : Nat) (ps : List (List Tok))
    (s : List Char) :
    extractAux minV maxV ps s = 0 ∨
      (minV ≤ extractAux minV maxV ps s ∧ extractAux minV maxV ps s ≤ maxV) := by
  induction ps with
  | nil => left; rfl
  | cons p ps ih =>
    cases h : searchToks p s with
    | none => simpa [extractAux, h] using ih
    | some r =>
      cases r with
      | none => simpa [extractAux, h] using ih
      | some ds =>
        by_cases hb : minV ≤ digitsVal ds ∧ digitsVal ds ≤ maxV
        · right
          simp only [extractAux, h]
          rw [if_pos hb]
          exact hb
        · simpa [extractAux, h, hb] using ih

theorem pythonRound_eq_roundHalfEvenSpec (q : ℚ) :
    pythonRound q = roundHalfEvenSpec q := by
  have h0 : (⌊q⌋ : ℚ) ≤ q := Int.floor_le q
  have h1 : q < ⌊q⌋ + 1 := Int.lt_floor_add_one q
  unfold pythonRound roundHalfEvenSpec
  rcases lt_trichotomy (q - ⌊q⌋) (1 / 2) with h | h | h
  · have hn : ⌊q + 1 / 2⌋ = ⌊q⌋ := by
      rw [Int.floor_eq_iff]
      constructor
      · linarith
      · linarith
    rw [hn, if_pos h, if_neg]
    rintro ⟨he, -⟩
    linarith
  · have hq : q = (⌊q⌋ : ℚ) + 1 / 2 := by linarith
    have hn : ⌊q + 1 / 2⌋ = ⌊q⌋ + 1 := by
      rw [Int.floor_eq_iff]
      constructor
      · push_cast
        linarith
      · push_cast
        linarith
    rw [hn, if_neg (by linarith), if_neg (by linarith)]
    have htie : (q + 1 / 2 : ℚ) = ((⌊q⌋ + 1 : ℤ) : ℚ) := by
      push_cast
      linarith
    by_cases hev : ⌊q⌋ % 2 = 0
    · rw [if_pos hev, if_pos ⟨htie, by omega⟩]
      omega
    · rw [if_neg hev, if_neg]
      omega
  · have hn : ⌊q + 1 / 2⌋ = ⌊q⌋ + 1 := by
      rw [Int.floor_eq_iff]
      constructor
      · push_cast
        linarith
      · push_cast
        linarith
    rw [hn, if_neg (by linarith), if_pos h, if_neg]
    rintro ⟨he, -⟩
    push_cast at he
    linarith

/-!
## Claim theorems: day window
-/

/-- C5: for every instant `now`, the window returned by
`get_daily_window_timestamps` (utils/helpers.py) is half-open
`[start, end)` with `start ≤ now < end` and `end - start` exactly 24
hours. -/
theorem daily_window_contains_now_and_is_24h (t : Int) :
    (get_daily_window_timestamps t).1 ≤ t ∧
      t < (get_daily_window_timestamps t).2 ∧
      (get_daily_window_timestamps t).2 - (get_daily_window_timestamps t).1 = usPerDay := by
  unfold get_daily_window_timestamps usPerDay usPerHour
  split
  · refine ⟨?_, ?_, ?_⟩ <;> simp <;> omega
  · refine ⟨?_, ?_, ?_⟩ <;> simp <;> omega

/-- C3, counterexample: at the instant `t = 0` the two drafts of
`get_daily_window_timestamps` return different windows — helpers.py uses
boundary hour 21 and app.py hour 5. -/
theorem window_calculators_differ_at_zero :
    get_daily_window_timestamps 0 ≠ get_daily_window_timestamps_app 0 := by
  decide

/-- C3, amended: each draft uses one fixed boundary hour, but the hours
differ (21 in utils/helpers.py, 5 in app.py), so the two calculators
disagree on the window start at every wall-clock instant. -/
theorem window_calculators_never_agree (t : Int) :
    (get_daily_window_timestamps t).1 ≠ (get_daily_window_timestamps_app t).1 := by
  unfold get_daily_window_timestamps get_daily_window_timestamps_app usPerDay usPerHour
  split <;> split <;> simp <;> omega

/-!
## Claim theorems: extractor equivalence (C10)
-/

/-- C10: the two duplicated drafts of `extract_total_calories` agree on
every input — the pattern cascade is identical and the config bounds
`MIN_CALORIE_VALUE = 0`, `MAX_CALORIE_VALUE = 3000` coincide with the
hard-coded `0 <= calories <= 3000` of the app.py draft. -/
theorem extract_total_calories_app_eq_helpers (s : List Char) :
    extract_total_calories_app s = extract_total_calories s := rfl

/-!
## Claim theorems: ledger
-/

/-- C8: deleting the last meal of a user who has no entries reports
`(False, None)` and leaves the ledger unchanged. -/
theorem delete_last_meal_no_entries (l : List MealEntry) (uid : Int)
    (h : ∀ e ∈ l, e.user_id ≠ uid) :
    MealCalorie.delete_last_meal dbOk l uid = ((false, none), l) := by
  have hf : l.filter (fun e => e.user_id == uid) = [] := by
    rw [List.filter_eq_nil_iff]
    intro e he
    simpa using h e he
  unfold MealCalorie.delete_last_meal deleteLastMealRaw latestFor dbOk
  simp [hf]

/-- Witness for C8 at a concrete ledger holding only another user's entry. -/
theorem delete_last_meal_no_entries_witness :
    MealCalorie.delete_last_meal dbOk [⟨1, 1, ['u'], 100, ['a'], 5⟩] 7 =
      ((false, none), [⟨1, 1, ['u'], 100, ['a'], 5⟩]) :=
  delete_last_meal_no_entries [⟨1, 1, ['u'], 100, ['a'], 5⟩] 7 (by decide)

/-- C2 failing input: on `tieLedger` the DELETE of `delete_last_meal`
matches on `created_at` equality, so it removes BOTH tied rows — the
resulting ledger is empty although the claim mandates deleting exactly
one row. -/
theorem delete_last_meal_tie_deletes_both :
    (MealCalorie.delete_last_meal dbOk tieLedger 7).2 = [] ∧
      tieLedger.length = 2 := by
  decide

/-- C7: every ledger operation maps each persistence/connection failure to
its sentinel return value — `False` for `store` and `reset_daily_total`,
`0` for `get_daily_total`, `(False, None)` for `delete_last_meal` — rather
than propagating the raised exception. -/
theorem ledger_ops_fail_to_sentinels (m : DbMode) (l : List MealEntry)
    (nid : Nat) (uid : Int) (uname : List Char) (cal : Nat) (txt : List Char)
    (now t : Int) :
    ((m.connOk = false ∨ m.queryFails = true ∨ m.commitFails = true) →
        (MealCalorie.store m l nid uid uname cal txt now).1 = false) ∧
      ((m.connOk = false ∨ m.queryFails = true) →
        MealCalorie.get_daily_total m l uid t = 0) ∧
      ((m.connOk = false ∨ m.queryFails = true ∨ m.commitFails = true) →
        (MealCalorie.reset_daily_total m l uid t).1 = false) ∧
      ((m.connOk = false ∨ m.queryFails = true ∨ m.commitFails = true) →
        (MealCalorie.delete_last_meal m l uid).1 = (false, none)) := by
  obtain ⟨c, q, cm⟩ := m
  refine ⟨fun h => ?_, fun h => ?_, fun h => ?_, fun h => ?_⟩
  · cases c <;> cases q <;> cases cm <;>
      simp_all [MealCalorie.store, storeRaw]
  · cases c <;> cases q <;>
      simp_all [MealCalorie.get_daily_total, getDailyTotalRaw]
  · cases c <;> cases q <;> cases cm <;>
      simp_all [MealCalorie.reset_daily_total, resetDailyTotalRaw]
  · cases c <;> cases q <;> cases cm <;>
      cases hL : latestFor uid l <;>
      simp_all [MealCalorie.delete_last_meal, deleteLastMealRaw]

/-- Witness for C7: a concrete failing mode (no connection, raising
queries and commit) on a concrete ledger. -/
theorem ledger_ops_fail_to_sentinels_witness :
    (MealCalorie.store ⟨false, true, true⟩ [] 1 7 ['u'] 100 ['a'] 0).1 = false ∧
      MealCalorie.get_daily_total ⟨false, true, true⟩ [] 7 0 = 0 ∧
      (MealCalorie.reset_daily_total ⟨false, true, true⟩ [] 7 0).1 = false ∧
      (MealCalorie.delete_last_meal ⟨false, true, true⟩ [] 7).1 = (false, none) := by
  obtain ⟨h1, h2, h3, h4⟩ :=
    ledger_ops_fail_to_sentinels ⟨false, true, true⟩ [] 1 7 ['u'] 100 ['a'] 0 0
  exact ⟨h1 (Or.inl rfl), h2 (Or.inl rfl), h3 (Or.inl rfl), h4 (Or.inl rfl)⟩

/-!
## Claim theorems: progress calculator (C4)
-/

/-- C4, counterexample: at `total = 1`, `target = 8` the exact quotient is
12.5 (a value on which float and rational arithmetic agree bit-exactly);
Python's `round` gives 12 (ties to even) while the claimed round-half-up
formula gives 13. -/
theorem progress_percentage_not_half_up :
    (calculate_daily_progress 1 8).percentage ≠
      min 100 (roundHalfUpSpec ((1 : ℚ) / 8 * 100)) := by
  norm_num [calculate_daily_progress, pythonRound, roundHalfUpSpec]

/-- C4, amended: for `target > 0` the percentage is
`min(100, round(total * 100 / target))` where `round` is Python's
round-half-to-even (banker's rounding), and for `target = 0` it is `0`. -/
theorem progress_percentage_formula (total target : Nat) :
    (0 < target →
        (calculate_daily_progress total target).percentage =
          min 100 (roundHalfEvenSpec ((total : ℚ) * 100 / (target : ℚ)))) ∧
      (target = 0 → (calculate_daily_progress total target).percentage = 0) := by
  constructor
  · intro ht
    unfold calculate_daily_progress
    rw [if_pos ht, pythonRound_eq_roundHalfEvenSpec, div_mul_eq_mul_div]
  · intro h0
    subst h0
    simp [calculate_daily_progress]

/-- Witness for C4 at the spec's own example (950 of 1350) and at a zero
target. -/
theorem progress_percentage_formula_witness :
    (calculate_daily_progress 950 1350).percentage =
        min 100 (roundHalfEvenSpec ((950 : ℚ) * 100 / (1350 : ℚ))) ∧
      (calculate_daily_progress 950 0).percentage = 0 :=
  ⟨(progress_percentage_formula 950 1350).1 (by decide),
   (progress_percentage_formula 950 0).2 rfl⟩

/-!
## Claim theorems: photo flow invariant (C9)
-/

/-- C9: whenever `process_meal_photo` stores an entry, its calories are
strictly positive (zero extractions are dropped upstream) and at most
3000 (the extractor's bound check). -/
theorem stored_calories_positive_and_bounded (env : PhotoEnv) (call : StoreCall)
    (h : process_meal_photo env = some call) :
    0 < call.calories ∧ call.calories ≤ 3000 := by
  simp only [process_meal_photo] at h
  split at h
  · exact Option.noConfusion h
  split at h
  · exact Option.noConfusion h
  split at h
  · exact Option.noConfusion h
  split at h
  · exact Option.noConfusion h
  next a ha =>
    split at h
    · exact Option.noConfusion h
    split at h
    · split at h
      · next hcal =>
        injection h with h'
        subst h'
        refine ⟨hcal, ?_⟩
        rcases extractAux_eq_zero_or_bounded 0 3000 caloriePatterns a
          with h0 | ⟨-, hle⟩
        · rw [extract_total_calories_app] at hcal
          omega
        · exact hle
      · exact Option.noConfusion h
    · exact Option.noConfusion h

/-- Witness for C9: a run on the sample fixture analysis stores 450. -/
theorem stored_calories_positive_and_bounded_witness :
    0 < (450 : Nat) ∧ (450 : Nat) ≤ 3000 :=
  stored_calories_positive_and_bounded
    ⟨true, ['m'], 7, ['u'], true,
      some "*Total:* 450 kcal | P 49g | C 45g | F 5.5g".toList, true⟩
    ⟨7, ['u'], 450, "*Total:* 450 kcal | P 49g | C 45g | F 5.5g".toList⟩
    (by decide)

/-!
## Claim theorems: extractor misses (C6)

Every pattern of the cascade contains the literal `kcal`, so a successful
match forces a case-insensitive occurrence of `kcal` in the text.
-/

theorem orElse_eq_some_cases {α : Type} {a b : Option α} {r : α}
    (h : (a <|> b) = some r) : a = some r ∨ b = some r := by
  cases a with
  | none => right; simpa using h
  | some x => left; simpa using h

theorem ciOccursB_of_drop (l : List Char) :
    ∀ (s : List Char) (n : Nat), ciStarts l (s.drop n) = true → ciOccursB l s = true := by
  intro s
  induction s with
  | nil =>
    intro n h
    simpa [ciOccursB] using h
  | cons c t ih =>
    intro n h
    cases n with
    | zero => simp only [List.drop_zero] at h; simp [ciOccursB, h]
    | succ m =>
      have := ih m (by simpa using h)
      simp [ciOccursB, this]

theorem starSpaceK_suffix {k : List Char → Option MatchRes} {r : MatchRes} :
    ∀ s, starSpaceK k s = some r →
      ∃ rest r', rest <:+ s ∧ k rest = some r' := by
  intro s
  induction s with
  | nil =>
    intro h
    exact ⟨[], r, List.suffix_refl _, by simpa [starSpaceK] using h⟩
  | cons c t ih =>
    intro h
    rw [starSpaceK] at h
    by_cases hc : isSpaceC c = true
    · rw [if_pos hc] at h
      rcases orElse_eq_some_cases h with h1 | h1
      · obtain ⟨rest, r', hsuf, hk⟩ := ih h1
        exact ⟨rest, r', hsuf.trans (List.suffix_cons c t), hk⟩
      · exact ⟨c :: t, r, List.suffix_refl _, h1⟩
    · rw [if_neg hc] at h
      exact ⟨c :: t, r, List.suffix_refl _, h⟩

theorem lazyAnyK_suffix {k : List Char → Option MatchRes} {r : MatchRes} :
    ∀ s, lazyAnyK k s = some r →
      ∃ rest r', rest <:+ s ∧ k rest = some r' := by
  intro s
  induction s with
  | nil =>
    intro h
    exact ⟨[], r, List.suffix_refl _, by simpa [lazyAnyK] using h⟩
  | cons c t ih =>
    intro h
    rw [lazyAnyK] at h
    rcases orElse_eq_some_cases h with h1 | h1
    · exact ⟨c :: t, r, List.suffix_refl _, h1⟩
    · by_cases hc : c = '\n'
      · rw [if_pos hc] at h1
        exact absurd h1 (by simp)
      · rw [if_neg hc] at h1
        obtain ⟨rest, r', hsuf, hk⟩ := ih h1
        exact ⟨rest, r', hsuf.trans (List.suffix_cons c t), hk⟩

theorem plusTryN_suffix {s : List Char} {k : List Char → Option MatchRes} {r : MatchRes} :
    ∀ n, plusTryN s k n = some r →
      ∃ rest r', rest <:+ s ∧ k rest = some r' := by
  intro n
  induction n with
  | zero => intro h; exact absurd h (by simp [plusTryN])
  | succ m ih =>
    intro h
    rw [plusTryN] at h
    rcases orElse_eq_some_cases h with h1 | h1
    · exact ⟨s.drop (m + 1), r, List.drop_suffix _ _, h1⟩
    · exact ih h1

theorem plusTryG_suffix {s : List Char} {k : List Char → Option MatchRes} {r : MatchRes} :
    ∀ n, plusTryG s k n = some r →
      ∃ rest r', rest <:+ s ∧ k rest = some r' := by
  intro n
  induction n with
  | zero => intro h; exact absurd h (by simp [plusTryG])
  | succ m ih =>
    intro h
    rw [plusTryG] at h
    rcases orElse_eq_some_cases h with h1 | h1
    · cases hk : k (s.drop (m + 1)) with
      | none => rw [hk] at h1; exact absurd h1 (by simp)
      | some x => exact ⟨s.drop (m + 1), x, List.drop_suffix _ _, hk⟩
    · exact ih h1

/-- A successful token match hands the continuation some suffix of the
text. -/
theorem tokM_suffix {t : Tok} {s : List Char} {k : List Char → Option MatchRes}
    {r : MatchRes} (h : tokM t s k = some r) :
    ∃ rest r', rest <:+ s ∧ k rest = some r' := by
  cases t with
  | lit l =>
    rw [tokM] at h
    by_cases hcs : ciStarts l s = true
    · rw [if_pos hcs] at h
      exact ⟨s.drop l.length, r, List.drop_suffix _ _, h⟩
    · rw [if_neg hcs] at h
      exact absurd h (by simp)
  | optColon =>
    cases s with
    | nil => exact ⟨[], r, List.suffix_refl _, by simpa [tokM] using h⟩
    | cons c t' =>
      simp only [tokM] at h
      by_cases hc : c = ':'
      · rw [if_pos hc] at h
        rcases orElse_eq_some_cases h with h1 | h1
        · exact ⟨t', r, List.suffix_cons c t', h1⟩
        · exact ⟨c :: t', r, List.suffix_refl _, h1⟩
      · rw [if_neg hc] at h
        exact ⟨c :: t', r, List.suffix_refl _, h⟩
  | starSpace => exact starSpaceK_suffix s h
  | lazyAny => exact lazyAnyK_suffix s h
  | groupDigits => exact plusTryG_suffix _ h
  | plainDigits => exact plusTryN_suffix _ h

/-- A successful match of a token sequence containing the literal `L`
exhibits a case-insensitive occurrence of `L` at some offset. -/
theorem matchToks_lit_occurs {L : List Char} :
    ∀ (toks : List Tok) (s : List Char) (r : MatchRes),
      matchToks toks s = some r → Tok.lit L ∈ toks →
        ∃ n, ciStarts L (s.drop n) = true := by
  intro toks
  induction toks with
  | nil =>
    intro s r h hm
    exact absurd hm (List.not_mem_nil _)
  | cons t ts ih =>
    intro s r h hm
    rw [List.mem_cons] at hm
    rw [matchToks] at h
    rcases hm with rfl | hm
    · simp only [tokM] at h
      by_cases hcs : ciStarts L s = true
      · exact ⟨0, by simpa using hcs⟩
      · rw [if_neg hcs] at h
        exact absurd h (by simp)
    · obtain ⟨rest, r', hsuf, hk⟩ := tokM_suffix h
      obtain ⟨n, hn⟩ := ih rest r' hk hm
      obtain ⟨u, rfl⟩ := hsuf
      refine ⟨u.length + n, ?_⟩
      rwa [← List.drop_drop, List.drop_left]

/-- A successful `re.search` of a pattern containing the literal `L`
means `L` occurs case-insensitively in the text. -/
theorem searchToks_lit_occurs {L : List Char} {toks : List Tok} :
    ∀ (s : List Char) (r : MatchRes),
      searchToks toks s = some r → Tok.lit L ∈ toks → ciOccursB L s = true := by
  intro s
  induction s with
  | nil =>
    intro r h hm
    obtain ⟨n, hn⟩ := matchToks_lit_occurs toks [] r (by simpa [searchToks] using h) hm
    exact ciOccursB_of_drop L [] n hn
  | cons c t ih =>
    intro r h hm
    rw [searchToks] at h
    rcases orElse_eq_some_cases h with h1 | h1
    · obtain ⟨n, hn⟩ := matchToks_lit_occurs toks (c :: t) r h1 hm
      exact ciOccursB_of_drop L (c :: t) n hn
    · have := ih r h1 hm
      simp [ciOccursB, this]

/-- C6: `extract_total_calories` returns 0 on any text with no
case-insensitive occurrence of "kcal", and on the spec's example
"Total: 5000 kcal", whose only matched number 5000 exceeds the bound
3000. -/
theorem extract_zero_on_misses :
    (∀ s : List Char, ciOccursB kcalLit s = false → extract_total_calories s = 0) ∧
      extract_total_calories "Total: 5000 kcal".toList = 0 := by
  constructor
  · intro s hk
    have hsearch : ∀ p, Tok.lit kcalLit ∈ p → searchToks p s = none := by
      intro p hmem
      cases hres : searchToks p s with
      | none => rfl
      | some r =>
        have := searchToks_lit_occurs s r hres hmem
        rw [this] at hk
        exact absurd hk (by simp)
    have h1 := hsearch pat1 (by decide)
    have h2 := hsearch pat2 (by decide)
    have h3 := hsearch pat3 (by decide)
    have h4 := hsearch pat4 (by decide)
    have h5 := hsearch pat5 (by decide)
    have h6 := hsearch pat6 (by decide)
    simp [extract_total_calories, caloriePatterns, extractAux, h1, h2, h3, h4, h5, h6]
  · decide

/-- Witness for C6 on a concrete kcal-free text. -/
theorem extract_zero_on_misses_witness :
    ciOccursB kcalLit "just a sandwich".toList = false ∧
      extract_total_calories "just a sandwich".toList = 0 :=
  ⟨by decide, extract_zero_on_misses.1 "just a sandwich".toList (by decide)⟩

/-!
## Claim theorems: the "*Total:*" line family (C1)

On `"*Total:* {c} kcal | P Xg | C Yg | F Zg"` the first two patterns both
miss — `\*Total\*:?` requires the colon after the second asterisk, and
`Total:?\s*(\d+)` is blocked by the `*` between the colon and the number —
so the match is produced by the third pattern `Total.*?(\d+)\s*kcal`,
whose lazy gap absorbs `:* ` and whose group captures the digits of `c`.
-/

theorem digitRun_append_nondigit (ds : List Char) (hd : ∀ c ∈ ds, isDigitC c = true)
    (c : Char) (s : List Char) (hc : isDigitC c = false) :
    digitRun (ds ++ c :: s) = ds := by
  induction ds with
  | nil => simp [digitRun, hc]
  | cons d ds ih =>
    have hdd : isDigitC d = true := hd d (List.mem_cons_self d ds)
    rw [List.cons_append, digitRun, if_pos hdd,
      ih (fun x hx => hd x (List.mem_cons_of_mem d hx))]

/-- The tail `(\d+)\s*kcal` of pattern 3 fails on a text starting with a
non-digit. -/
theorem k3_nondigit (c : Char) (s : List Char) (hc : isDigitC c = false) :
    matchToks [Tok.groupDigits, Tok.starSpace, Tok.lit kcalLit] (c :: s) = none := by
  simp [matchToks, tokM, digitRun, hc, plusTryG]

/-- The tail `(\d+)\s*kcal` of pattern 3 captures exactly the maximal
digit block when the text continues with `" kcal"`. -/
theorem k3_digits (D R : List Char) (hD : ∀ c ∈ D, isDigitC c = true) (hne : D ≠ []) :
    matchToks [Tok.groupDigits, Tok.starSpace, Tok.lit kcalLit]
      (D ++ (' ' :: 'k' :: 'c' :: 'a' :: 'l' :: R)) = some (some D) := by
  cases D with
  | nil => exact absurd rfl hne
  | cons d D' =>
    have hrun : digitRun ((d :: D') ++ (' ' :: 'k' :: 'c' :: 'a' :: 'l' :: R)) = d :: D' :=
      digitRun_append_nondigit (d :: D') hD ' ' _ (by decide)
    have hdrop : ((d :: D') ++ (' ' :: 'k' :: 'c' :: 'a' :: 'l' :: R)).drop (d :: D').length
        = ' ' :: 'k' :: 'c' :: 'a' :: 'l' :: R := List.drop_left _ _
    have htake : ((d :: D') ++ (' ' :: 'k' :: 'c' :: 'a' :: 'l' :: R)).take (d :: D').length
        = d :: D' := List.take_left _ _
    have hk : matchToks [Tok.starSpace, Tok.lit kcalLit] (' ' :: 'k' :: 'c' :: 'a' :: 'l' :: R)
        = some none := by
      simp [matchToks, tokM, starSpaceK, isSpaceC, kcalLit, ciStarts, lowerC]
    simp only [matchToks, tokM] at hk ⊢
    rw [hrun]
    simp only [List.length_cons]
    rw [plusTryG]
    rw [show D'.length + 1 = (d :: D').length from rfl, hdrop, htake, hk]
    simp

theorem lazyAnyK_step {k : List Char → Option MatchRes} {c : Char} {t : List Char}
    (hc : c ≠ '\n') (hk : k (c :: t) = none) :
    lazyAnyK k (c :: t) = lazyAnyK k t := by
  rw [lazyAnyK, hk, if_neg hc]
  simp

theorem lazyAnyK_hit {k : List Char → Option MatchRes} {s : List Char} {r : MatchRes}
    (hk : k s = some r) : lazyAnyK k s = some r := by
  cases s with
  | nil => rw [lazyAnyK]; exact hk
  | cons c t => rw [lazyAnyK, hk]; rfl

theorem matchToks_pat3_eq (s : List Char) (h : ciStarts ['T', 'o', 't', 'a', 'l'] s = true) :
    matchToks pat3 s =
      lazyAnyK (fun r => matchToks [Tok.groupDigits, Tok.starSpace, Tok.lit kcalLit] r)
        (s.drop 5) := by
  conv_lhs => rw [pat3, matchToks]
  simp only [tokM]
  rw [if_pos h]
  conv_lhs => rw [matchToks]
  simp only [tokM]
  rfl

/-- Pattern 3 applied at the `Total` of the `"*Total:* {D} kcal ..."` line
captures exactly `D`. -/
theorem matchToks_pat3_total_line (D R : List Char)
    (hD : ∀ c ∈ D, isDigitC c = true) (hne : D ≠ []) :
    matchToks pat3
      ('T' :: 'o' :: 't' :: 'a' :: 'l' :: ':' :: '*' :: ' ' ::
        (D ++ (' ' :: 'k' :: 'c' :: 'a' :: 'l' :: R))) = some (some D) := by
  rw [matchToks_pat3_eq _ (by simp [ciStarts, lowerC])]
  simp only [List.drop_succ_cons, List.drop_zero]
  rw [lazyAnyK_step (by decide) (k3_nondigit ':' _ (by decide)),
    lazyAnyK_step (by decide) (k3_nondigit '*' _ (by decide)),
    lazyAnyK_step (by decide) (k3_nondigit ' ' _ (by decide))]
  cases D with
  | nil => exact absurd rfl hne
  | cons d D' =>
    exact lazyAnyK_hit (k3_digits (d :: D') R hD hne)

theorem matchToks_lit_head_ne {a : Char} {L : List Char} {ts : List Tok} {c : Char}
    {s : List Char} (h : lowerC a ≠ lowerC c) :
    matchToks (Tok.lit (a :: L) :: ts) (c :: s) = none := by
  have hcs : ciStarts (a :: L) (c :: s) = false := by
    simp [ciStarts]
    intro hab
    exact absurd hab h
  simp [matchToks, tokM, hcs]

theorem searchToks_cons_none {toks : List Tok} {c : Char} {s : List Char}
    (h : matchToks toks (c :: s) = none) :
    searchToks toks (c :: s) = searchToks toks s := by
  rw [searchToks, h]
  simp

theorem searchToks_skip_one {a : Char} {L : List Char} {ts : List Tok} {c : Char}
    {s : List Char} (h : lowerC a ≠ lowerC c) :
    searchToks (Tok.lit (a :: L) :: ts) (c :: s) = searchToks (Tok.lit (a :: L) :: ts) s :=
  searchToks_cons_none (matchToks_lit_head_ne h)

theorem lowerC_of_isDigit (c : Char) (h : isDigitC c = true) : lowerC c = c := by
  have hp := of_decide_eq_true h
  rw [lowerC, if_neg]
  omega

theorem lowerC_ne_of_digit {a : Char} (ha : isDigitC (lowerC a) = false) (c : Char)
    (hc : isDigitC c = true) : lowerC a ≠ lowerC c := by
  rw [lowerC_of_isDigit c hc]
  intro he
  rw [he] at ha
  rw [hc] at ha
  exact Bool.noConfusion ha

theorem searchToks_skip_digits {a : Char} {L : List Char} {ts : List Tok}
    (ha : isDigitC (lowerC a) = false) (ds : List Char) (s : List Char)
    (hd : ∀ c ∈ ds, isDigitC c = true) :
    searchToks (Tok.lit (a :: L) :: ts) (ds ++ s) = searchToks (Tok.lit (a :: L) :: ts) s := by
  induction ds with
  | nil => rfl
  | cons d ds ih =>
    rw [List.cons_append,
      searchToks_skip_one (lowerC_ne_of_digit ha d (hd d (List.mem_cons_self d ds))),
      ih (fun x hx => hd x (List.mem_cons_of_mem d hx))]

/-- Pattern 1 at position 0: the colon of `*Total:*` breaks the required
literal `*Total*`. -/
theorem matchToks_pat1_colon (rest : List Char) :
    matchToks pat1 ('*' :: 'T' :: 'o' :: 't' :: 'a' :: 'l' :: ':' :: rest) = none := by
  simp [pat1, matchToks, tokM, ciStarts, lowerC]

/-- Pattern 1 at the second asterisk: the following blank breaks
`*Total*`. -/
theorem matchToks_pat1_blank (rest : List Char) :
    matchToks pat1 ('*' :: ' ' :: rest) = none := by
  simp [pat1, matchToks, tokM, ciStarts, lowerC]

theorem searchToks_pat1_skip {c : Char} {s : List Char} (h : lowerC '*' ≠ lowerC c) :
    searchToks pat1 (c :: s) = searchToks pat1 s :=
  searchToks_skip_one h

theorem searchToks_pat1_skip_digits (ds s : List Char) (hd : ∀ c ∈ ds, isDigitC c = true) :
    searchToks pat1 (ds ++ s) = searchToks pat1 s :=
  searchToks_skip_digits (a := '*') (by decide) ds s hd

/-- The search of pattern 1 over the whole `"*Total:* {D} kcal ..."` line
fails: asterisks occur only at positions 0 and 7, and the literal
`*Total*` matches at neither. -/
theorem searchToks_pat1_total_line (D X Y Z : List Char)
    (hD : ∀ c ∈ D, isDigitC c = true) (hX : ∀ c ∈ X, isDigitC c = true)
    (hY : ∀ c ∈ Y, isDigitC c = true) (hZ : ∀ c ∈ Z, isDigitC c = true) :
    searchToks pat1 (c1String D X Y Z) = none := by
  unfold c1String
  rw [searchToks_cons_none (matchToks_pat1_colon _),
    searchToks_pat1_skip (by decide), searchToks_pat1_skip (by decide),
    searchToks_pat1_skip (by decide), searchToks_pat1_skip (by decide),
    searchToks_pat1_skip (by decide), searchToks_pat1_skip (by decide),
    searchToks_cons_none (matchToks_pat1_blank _), searchToks_pat1_skip (by decide),
    searchToks_pat1_skip_digits D _ hD,
    searchToks_pat1_skip (by decide), searchToks_pat1_skip (by decide),
    searchToks_pat1_skip (by decide), searchToks_pat1_skip (by decide),
    searchToks_pat1_skip (by decide), searchToks_pat1_skip (by decide),
    searchToks_pat1_skip (by decide), searchToks_pat1_skip (by decide),
    searchToks_pat1_skip (by decide), searchToks_pat1_skip (by decide),
    searchToks_pat1_skip_digits X _ hX,
    searchToks_pat1_skip (by decide), searchToks_pat1_skip (by decide),
    searchToks_pat1_skip (by decide), searchToks_pat1_skip (by decide),
    searchToks_pat1_skip (by decide), searchToks_pat1_skip (by decide),
    searchToks_pat1_skip_digits Y _ hY,
    searchToks_pat1_skip (by decide), searchToks_pat1_skip (by decide),
    searchToks_pat1_skip (by decide), searchToks_pat1_skip (by decide),
    searchToks_pat1_skip (by decide), searchToks_pat1_skip (by decide),
    searchToks_pat1_skip_digits Z _ hZ,
    searchToks_pat1_skip (by decide)]
  decide

/-- Pattern 2 at the `Total` of the line: the asterisk between the colon
and the digits blocks `Total:?\s*(\d+)`. -/
theorem matchToks_pat2_at_total (rest : List Char) :
    matchToks pat2 ('T' :: 'o' :: 't' :: 'a' :: 'l' :: ':' :: '*' :: rest) = none := by
  simp [pat2, matchToks, tokM, ciStarts, lowerC, starSpaceK, isSpaceC, digitRun, isDigitC,
    plusTryG]

/-- Pattern 2 at the lone lower-case `t` inside `Total`. -/
theorem matchToks_pat2_at_t (rest : List Char) :
    matchToks pat2 ('t' :: 'a' :: rest) = none := by
  simp [pat2, matchToks, tokM, ciStarts, lowerC]

theorem searchToks_pat2_skip {c : Char} {s : List Char} (h : lowerC 'T' ≠ lowerC c) :
    searchToks pat2 (c :: s) = searchToks pat2 s :=
  searchToks_skip_one h

theorem searchToks_pat2_skip_digits (ds s : List Char) (hd : ∀ c ∈ ds, isDigitC c = true) :
    searchToks pat2 (ds ++ s) = searchToks pat2 s :=
  searchToks_skip_digits (a := 'T') (by decide) ds s hd

/-- The search of pattern 2 over the whole `"*Total:* {D} kcal ..."` line
fails. -/
theorem searchToks_pat2_total_line (D X Y Z : List Char)
    (hD : ∀ c ∈ D, isDigitC c = true) (hX : ∀ c ∈ X, isDigitC c = true)
    (hY : ∀ c ∈ Y, isDigitC c = true) (hZ : ∀ c ∈ Z, isDigitC c = true) :
    searchToks pat2 (c1String D X Y Z) = none := by
  unfold c1String
  rw [searchToks_pat2_skip (by decide),
    searchToks_cons_none (matchToks_pat2_at_total _), searchToks_pat2_skip (by decide),
    searchToks_cons_none (matchToks_pat2_at_t _),
    searchToks_pat2_skip (by decide), searchToks_pat2_skip (by decide),
    searchToks_pat2_skip (by decide), searchToks_pat2_skip (by decide),
    searchToks_pat2_skip (by decide),
    searchToks_pat2_skip_digits D _ hD,
    searchToks_pat2_skip (by decide), searchToks_pat2_skip (by decide),
    searchToks_pat2_skip (by decide), searchToks_pat2_skip (by decide),
    searchToks_pat2_skip (by decide), searchToks_pat2_skip (by decide),
    searchToks_pat2_skip (by decide), searchToks_pat2_skip (by decide),
    searchToks_pat2_skip (by decide), searchToks_pat2_skip (by decide),
    searchToks_pat2_skip_digits X _ hX,
    searchToks_pat2_skip (by decide), searchToks_pat2_skip (by decide),
    searchToks_pat2_skip (by decide), searchToks_pat2_skip (by decide),
    searchToks_pat2_skip (by decide), searchToks_pat2_skip (by decide),
    searchToks_pat2_skip_digits Y _ hY,
    searchToks_pat2_skip (by decide), searchToks_pat2_skip (by decide),
    searchToks_pat2_skip (by decide), searchToks_pat2_skip (by decide),
    searchToks_pat2_skip (by decide), searchToks_pat2_skip (by decide),
    searchToks_pat2_skip_digits Z _ hZ,
    searchToks_pat2_skip (by decide)]
  decide

theorem matchToks_pat3_at_star (rest : List Char) :
    matchToks pat3 ('*' :: rest) = none :=
  matchToks_lit_head_ne (by decide)

/-- The search of pattern 3 over the `"*Total:* {D} kcal ..."` line
matches and captures exactly `D`. -/
theorem searchToks_pat3_total_line (D X Y Z : List Char)
    (hD : ∀ c ∈ D, isDigitC c = true) (hne : D ≠ []) :
    searchToks pat3 (c1String D X Y Z) = some (some D) := by
  unfold c1String
  rw [searchToks_cons_none (matchToks_pat3_at_star _)]
  conv_lhs => rw [searchToks]
  rw [matchToks_pat3_total_line D _ hD hne]
  rfl

theorem digitsVal_append_singleton (l : List Char) (d : Char) :
    digitsVal (l ++ [d]) = 10 * digitsVal l + (d.toNat - 48) := by
  simp [digitsVal, List.foldl_append]

theorem digitChar_props (m : Nat) (hm : m < 10) :
    (Nat.digitChar m).toNat - 48 = m ∧ isDigitC (Nat.digitChar m) = true := by
  interval_cases m <;> exact ⟨rfl, rfl⟩

/-- `natDecFuel` renders the decimal digits of `n`, whose value round-trips
through `digitsVal`. -/
theorem natDecFuel_spec : ∀ f n, n < f →
    digitsVal (natDecFuel f n) = n ∧ natDecFuel f n ≠ [] ∧
      ∀ c ∈ natDecFuel f n, isDigitC c = true := by
  intro f
  induction f with
  | zero => intro n h; exact absurd h (Nat.not_lt_zero n)
  | succ f ih =>
    intro n hn
    by_cases h10 : n < 10
    · rw [natDecFuel, if_pos h10]
      obtain ⟨hv, hd⟩ := digitChar_props n h10
      refine ⟨?_, by simp, ?_⟩
      · simpa [digitsVal] using hv
      · intro c hc
        rw [List.mem_singleton] at hc
        subst hc
        exact hd
    · rw [natDecFuel, if_neg h10]
      have hdiv : n / 10 < f := by omega
      obtain ⟨ihv, ihne, ihd⟩ := ih (n / 10) hdiv
      obtain ⟨hv, hd⟩ := digitChar_props (n % 10) (by omega)
      refine ⟨?_, by simp, ?_⟩
      · rw [digitsVal_append_singleton, ihv, hv]
        omega
      · intro c hc
        rw [List.mem_append] at hc
        rcases hc with hc | hc
        · exact ihd c hc
        · rw [List.mem_singleton] at hc
          subst hc
          exact hd

theorem natDec_spec (n : Nat) :
    digitsVal (natDec n) = n ∧ natDec n ≠ [] ∧ ∀ c ∈ natDec n, isDigitC c = true :=
  natDecFuel_spec (n + 1) n (Nat.lt_succ_self n)

/-- C1: for every `c ≤ 3000` and arbitrary digit strings `X`, `Y`, `Z`,
`extract_total_calories` applied to the rendered line
`"*Total:* {c} kcal | P {X}g | C {Y}g | F {Z}g"` returns exactly `c`
(patterns 1 and 2 miss; pattern 3 captures the digits of `c`, which pass
the `[0, 3000]` bound check). -/
theorem extract_on_total_line (c : Nat) (hc : c ≤ 3000) (X Y Z : List Char)
    (hX : ∀ ch ∈ X, isDigitC ch = true) (hY : ∀ ch ∈ Y, isDigitC ch = true)
    (hZ : ∀ ch ∈ Z, isDigitC ch = true) :
    extract_total_calories (c1String (natDec c) X Y Z) = c := by
  obtain ⟨hval, hne, hdig⟩ := natDec_spec c
  have h1 := searchToks_pat1_total_line (natDec c) X Y Z hdig hX hY hZ
  have h2 := searchToks_pat2_total_line (natDec c) X Y Z hdig hX hY hZ
  have h3 := searchToks_pat3_total_line (natDec c) X Y Z hdig hne
  unfold extract_total_calories caloriePatterns
  simp only [extractAux, h1, h2, h3]
  rw [hval]
  rw [if_pos ⟨Nat.zero_le c, hc⟩]

/-- Witness for C1 at the spec's fixture value 450 with digit macro
strings. -/
theorem extract_on_total_line_witness :
    extract_total_calories (c1String (natDec 450) ['4', '9'] ['4', '5'] ['5']) = 450 :=
  extract_on_total_line 450 (by decide) ['4', '9'] ['4', '5'] ['5']
    (by decide) (by decide) (by decide)
